import Mathlib

/-!
Verification of the lecture frame extractor
(`3-note-generator/extract_lecture_frames.py`, class `LectureFrameExtractor`).

Modelling conventions.

* A `Frame` is modelled as the grayscale raster the OpenCV pipeline works on:
  a list of rows of intensities in `0..255`.  Every comparison primitive in the
  source first converts its BGR input to grayscale (`cv2.cvtColor`), so the
  grayscale grid is the data all decision logic sees.
* Machine floats are modelled by exact numbers: `ℚ` wherever the source value
  is rational (means of absolute differences, thresholds, timestamps) and `ℝ`
  for the histogram correlation (whose value involves a square root).
* `calculate_structural_similarity` contains a downscale branch that fires only
  when a frame dimension exceeds 800 px (`cv2.resize`, bilinear).  The model
  has two layers: `calculate_structural_similarity` is the branch-free
  `≤ 800` px path, and `calculate_structural_similarity_full` adds the
  downscale branch (destination size per the source's formula, `cv2.resize`
  INTER_LINEAR with OpenCV's 11-bit fixed-point interpolation and its throw on
  an empty destination size); `structural_similarity_agree` proves the two
  coincide on the `≤ 800` px domain.
* Fallible OpenCV calls are modelled with `Except`: `cv2.cvtColor` throws on an
  empty image and `cv2.absdiff` throws on a size mismatch; histograms exist for
  any non-empty image, so the histogram comparison only fails on empty input.
* `cv2.compareHist(_, _, HISTCMP_CORREL)` computes
  `num / sqrt(den2)` with `num = s12 - s1*s2/total`,
  `den2 = (s11 - s1^2/total) * (s22 - s2^2/total)`, `total = 256` bins,
  and returns `1.0` when `den2` vanishes.  The `cv2.normalize` (L2) step that
  the source applies to both histograms before comparing rescales each
  histogram by a positive factor, and the correlation above is invariant under
  positive rescaling of either argument (numerator and denominator scale by the
  same factor), so the model computes the correlation on the raw histograms.
-/

namespace LectureFrames

/-- A raster frame after grayscale conversion: rows of intensities. -/
structure Frame where
  rows : List (List ℕ)
deriving DecidableEq, Repr

def Frame.height (f : Frame) : ℕ := f.rows.length

def Frame.width (f : Frame) : ℕ := (f.rows.headD []).length

/-- All pixels of the frame, row-major. -/
def Frame.pixels (f : Frame) : List ℕ := f.rows.join

def Frame.pixelCount (f : Frame) : ℕ := f.pixels.length

/-- `cv2.absdiff` (and hence the mean-difference comparison) requires frames of
identical dimensions. -/
def sameShape (f1 f2 : Frame) : Prop :=
  f1.height = f2.height ∧ f1.width = f2.width

instance (f1 f2 : Frame) : Decidable (sameShape f1 f2) := by
  unfold sameShape; infer_instance

/-- Errors raised by the OpenCV comparison primitives (`resizeError` is the
`cv2.resize` assertion failure on an empty destination size). -/
inductive CvError where
  | emptyInput : CvError
  | sizeMismatch : CvError
  | resizeError : CvError
deriving DecidableEq, Repr

instance instDecEqExcept {e a : Type} [DecidableEq e] [DecidableEq a] :
    DecidableEq (Except e a) := fun x y =>
  match x, y with
  | .ok u, .ok v =>
      if h : u = v then isTrue (by rw [h]) else isFalse (by simp [h])
  | .error u, .error v =>
      if h : u = v then isTrue (by rw [h]) else isFalse (by simp [h])
  | .ok _, .error _ => isFalse (by simp)
  | .error _, .ok _ => isFalse (by simp)

/-! ### Histogram similarity (`calculate_frame_similarity`) -/

/-- One bin of the 256-bin grayscale histogram (`cv2.calcHist`). -/
def histBin (f : Frame) (v : ℕ) : ℕ := f.pixels.count v

def histS1 (f : Frame) : ℚ := ∑ v ∈ Finset.range 256, (histBin f v : ℚ)

def histS11 (f : Frame) : ℚ := ∑ v ∈ Finset.range 256, (histBin f v : ℚ) ^ 2

def histS12 (f1 f2 : Frame) : ℚ :=
  ∑ v ∈ Finset.range 256, (histBin f1 v : ℚ) * (histBin f2 v : ℚ)

/-- Numerator of `HISTCMP_CORREL`. -/
def histNum (f1 f2 : Frame) : ℚ := histS12 f1 f2 - histS1 f1 * histS1 f2 / 256

/-- The per-histogram variance term `s11 - s1^2/total`. -/
def histVar (f : Frame) : ℚ := histS11 f - (histS1 f) ^ 2 / 256

/-- Squared denominator of `HISTCMP_CORREL`. -/
def histDen2 (f1 f2 : Frame) : ℚ := histVar f1 * histVar f2

/-- The histogram correlation value returned by
`cv2.compareHist(h1, h2, HISTCMP_CORREL)` (value `1` on a vanishing
denominator, as in OpenCV). -/
noncomputable def histCorrel (f1 f2 : Frame) : ℝ :=
  if histDen2 f1 f2 = 0 then 1
  else (histNum f1 f2 : ℝ) / Real.sqrt ((histDen2 f1 f2 : ℝ))

/-- The comparison `calculate_frame_similarity(f1, f2) > t` made by the
stability and duplicate checks. -/
def HistSimExceeds (f1 f2 : Frame) (t : ℚ) : Prop :=
  (t : ℝ) < histCorrel f1 f2

/-- Exact rational decision procedure for `HistSimExceeds`. -/
def histSimDecide (f1 f2 : Frame) (t : ℚ) : Bool :=
  if histDen2 f1 f2 = 0 then decide (t < 1)
  else if 0 ≤ t then
    decide (0 < histNum f1 f2 ∧ t ^ 2 * histDen2 f1 f2 < (histNum f1 f2) ^ 2)
  else
    decide (0 ≤ histNum f1 f2 ∨ (histNum f1 f2) ^ 2 < t ^ 2 * histDen2 f1 f2)

theorem histVar_nonneg (f : Frame) : 0 ≤ histVar f := by
  have h := Finset.sum_mul_sq_le_sq_mul_sq (Finset.range 256)
    (fun v => (histBin f v : ℚ)) (fun _ => 1)
  simp only [mul_one, one_pow] at h
  have hcard : ∑ _v ∈ Finset.range 256, (1 : ℚ) = 256 := by simp
  rw [hcard] at h
  unfold histVar histS11 histS1
  have h256 : (0:ℚ) < 256 := by norm_num
  have hdiv : (∑ v ∈ Finset.range 256, (histBin f v : ℚ)) ^ 2 / 256 ≤
      ∑ v ∈ Finset.range 256, (histBin f v : ℚ) ^ 2 := by
    rw [div_le_iff h256]; linarith [h]
  linarith [hdiv]

theorem histDen2_nonneg (f1 f2 : Frame) : 0 ≤ histDen2 f1 f2 :=
  mul_nonneg (histVar_nonneg f1) (histVar_nonneg f2)

theorem histSimExceeds_iff (f1 f2 : Frame) (t : ℚ) :
    HistSimExceeds f1 f2 t ↔ histSimDecide f1 f2 t = true := by
  unfold HistSimExceeds histSimDecide histCorrel
  by_cases hd : histDen2 f1 f2 = 0
  · simp only [hd, if_true, decide_eq_true_eq]
    exact_mod_cast Iff.rfl
  · have hdpos : 0 < histDen2 f1 f2 := lt_of_le_of_ne (histDen2_nonneg f1 f2) (Ne.symm hd)
    have hDR : (0:ℝ) < ((histDen2 f1 f2 : ℚ) : ℝ) := by exact_mod_cast hdpos
    have hs : 0 < Real.sqrt ((histDen2 f1 f2 : ℚ) : ℝ) := Real.sqrt_pos.mpr hDR
    have hs2 : Real.sqrt ((histDen2 f1 f2 : ℚ) : ℝ) ^ 2 = ((histDen2 f1 f2 : ℚ) : ℝ) :=
      Real.sq_sqrt hDR.le
    simp only [hd, if_false, decide_eq_true_eq]
    rw [lt_div_iff hs]
    set s := Real.sqrt ((histDen2 f1 f2 : ℚ) : ℝ) with hsdef
    set N : ℚ := histNum f1 f2 with hNdef
    by_cases ht : 0 ≤ t
    · simp only [ht, if_true, decide_eq_true_eq]
      constructor
      · intro h
        have htsnn : 0 ≤ (t : ℝ) * s := mul_nonneg (by exact_mod_cast ht) hs.le
        have hNpos : (0:ℝ) < (N : ℝ) := lt_of_le_of_lt htsnn h
        refine ⟨by exact_mod_cast hNpos, ?_⟩
        have hsq : ((t : ℝ) * s) ^ 2 < (N : ℝ) ^ 2 := by
          have := mul_self_lt_mul_self htsnn h
          simpa [pow_two] using this
        have hexp : ((t : ℝ) * s) ^ 2 = (t : ℝ) ^ 2 * ((histDen2 f1 f2 : ℚ) : ℝ) := by
          rw [mul_pow, hs2]
        rw [hexp] at hsq
        exact_mod_cast hsq
      · rintro ⟨hNpos, hsq⟩
        have hNR : (0:ℝ) < (N : ℝ) := by exact_mod_cast hNpos
        have hsqR : (t : ℝ) ^ 2 * ((histDen2 f1 f2 : ℚ) : ℝ) < (N : ℝ) ^ 2 := by
          exact_mod_cast hsq
        nlinarith [hs, hs2, mul_nonneg (show (0:ℝ) ≤ (t:ℝ) by exact_mod_cast ht) hs.le]
    · simp only [ht, if_false, decide_eq_true_eq]
      have htneg : (t : ℝ) < 0 := by
        have : t < 0 := lt_of_not_le ht
        exact_mod_cast this
      constructor
      · intro h
        by_cases hN : 0 ≤ N
        · exact Or.inl hN
        · refine Or.inr ?_
          have hNR : (N : ℝ) < 0 := by exact_mod_cast lt_of_not_le hN
          have h1 : (0:ℝ) < -(N : ℝ) := by linarith
          have h2 : -(N : ℝ) < -((t : ℝ) * s) := by linarith
          have hsq : (-(N : ℝ)) ^ 2 < (-((t : ℝ) * s)) ^ 2 := by
            have := mul_self_lt_mul_self h1.le h2
            simpa [pow_two] using this
          have hexp : (-((t : ℝ) * s)) ^ 2 = (t : ℝ) ^ 2 * ((histDen2 f1 f2 : ℚ) : ℝ) := by
            rw [neg_pow, mul_pow, hs2]; ring
          rw [hexp, neg_pow] at hsq
          have hsq' : (N : ℝ) ^ 2 < (t : ℝ) ^ 2 * ((histDen2 f1 f2 : ℚ) : ℝ) := by
            simpa using hsq
          exact_mod_cast hsq'
      · intro h
        rcases h with hN | hsq
        · have hNR : (0:ℝ) ≤ (N : ℝ) := by exact_mod_cast hN
          have : (t : ℝ) * s < 0 := mul_neg_of_neg_of_pos htneg hs
          linarith
        · have hsqR : (N : ℝ) ^ 2 < (t : ℝ) ^ 2 * ((histDen2 f1 f2 : ℚ) : ℝ) := by
            exact_mod_cast hsq
          by_contra hcon
          rw [not_lt] at hcon
          have hts : (t : ℝ) * s < 0 := mul_neg_of_neg_of_pos htneg hs
          have h1 : (0:ℝ) ≤ -((t : ℝ) * s) := by linarith
          have h2 : -((t : ℝ) * s) ≤ -(N : ℝ) := by linarith
          nlinarith [mul_self_le_mul_self h1 h2, hs2, sq_nonneg (t : ℝ), hsqR]

instance (f1 f2 : Frame) (t : ℚ) : Decidable (HistSimExceeds f1 f2 t) :=
  decidable_of_iff (histSimDecide f1 f2 t = true) (histSimExceeds_iff f1 f2 t).symm

/-- `calculate_frame_similarity`: grayscale conversion (which throws on an
empty image), 256-bin histograms, L2 normalization, `HISTCMP_CORREL`. -/
noncomputable def calculate_frame_similarity (f1 f2 : Frame) : Except CvError ℝ :=
  if f1.pixels = [] ∨ f2.pixels = [] then .error .emptyInput
  else .ok (histCorrel f1 f2)

/-! ### Structural similarity (`calculate_structural_similarity`) -/

def rowAbsDiff (r1 r2 : List ℕ) : ℕ :=
  ((r1.zip r2).map (fun p => ((p.1 : ℤ) - (p.2 : ℤ)).natAbs)).sum

def framesAbsDiff (f1 f2 : Frame) : ℕ :=
  ((f1.rows.zip f2.rows).map (fun p => rowAbsDiff p.1 p.2)).sum

/-- `1 - np.mean(cv2.absdiff(gray1, gray2)) / 255`. -/
def structuralSimQ (f1 f2 : Frame) : ℚ :=
  1 - ((framesAbsDiff f1 f2 : ℚ) / (f1.pixelCount : ℚ)) / 255

/-- `calculate_structural_similarity`: optional resize (inert below 800 px),
grayscale conversion (throws on empty), `cv2.absdiff` (throws on a size
mismatch), mean absolute difference normalized to `[0,1]`, similarity is one
minus that. -/
def calculate_structural_similarity (f1 f2 : Frame) : Except CvError ℚ :=
  if f1.pixels = [] ∨ f2.pixels = [] then .error .emptyInput
  else if sameShape f1 f2 then .ok (structuralSimQ f1 f2)
  else .error .sizeMismatch

/-! The downscale branch of `calculate_structural_similarity` (source lines
67-75): when the first frame's longer side exceeds 800 px, both frames are
resized to `(int(width*scale), int(height*scale))` with `scale = 800/maxDim`
and `cv2.resize`'s default INTER_LINEAR interpolation before comparing.  The
source evaluates `scale` in double precision; the exact rational truncation
below agrees with it on the inputs exercised here (in particular on the
dyadic ratio 800/1600 = 1/2 and on destination sizes that truncate to 0). -/

/-- `int(dim * (800 / maxDim))`, in exact arithmetic. -/
def scaledDim (dim maxDim : ℕ) : ℕ := dim * 800 / maxDim

/-- One axis of INTER_LINEAR sampling for destination index `d`: the source
position is `(d + 1/2) * srcLen/dstLen - 1/2`; the result is the base source
index and the fractional offset, with OpenCV's edge clamping (offset 0 at the
borders). -/
def linearTap (srcLen dstLen d : ℕ) : ℕ × ℚ :=
  let p : ℚ := ((d : ℚ) + 1/2) * srcLen / dstLen - 1/2
  let s : ℤ := ⌊p⌋
  if s < 0 then (0, 0)
  else if (srcLen : ℤ) - 1 ≤ s then (srcLen - 1, 0)
  else (s.toNat, p - (s : ℚ))

/-- OpenCV's 11-bit fixed-point interpolation weight
(`INTER_RESIZE_COEF_SCALE = 2048`), rounded to nearest.  (OpenCV rounds ties
to even; a tie needs `u * 2048` to be a half-integer, which does not occur at
the dyadic offsets produced by the 2:1 downscale exercised below.) -/
def fixedWeight (u : ℚ) : ℕ := (⌊u * 2048 + 1/2⌋).toNat

/-- Pixel access with OpenCV-style in-range semantics (all theorem inputs
access in range). -/
def Frame.pixAt (f : Frame) (r c : ℕ) : ℕ := (f.rows.getD r []).getD c 0

/-- `cv2.resize(f, (nw, nh))` with the default INTER_LINEAR interpolation:
separable two-tap interpolation with 11-bit fixed-point weights, descaled by
22 bits with round-half-up and saturated to `0..255`, as in OpenCV's resize
kernel. -/
def resizeLinear (f : Frame) (nh nw : ℕ) : Frame :=
  ⟨(List.range nh).map fun r =>
    (List.range nw).map fun c =>
      let ty := linearTap f.height nh r
      let tx := linearTap f.width nw c
      let cy1 := fixedWeight ty.2
      let cy0 := 2048 - cy1
      let cx1 := fixedWeight tx.2
      let cx0 := 2048 - cx1
      let y1 := min (ty.1 + 1) (f.height - 1)
      let x1 := min (tx.1 + 1) (f.width - 1)
      let row0 := cx0 * f.pixAt ty.1 tx.1 + cx1 * f.pixAt ty.1 x1
      let row1 := cx0 * f.pixAt y1 tx.1 + cx1 * f.pixAt y1 x1
      min ((cy0 * row0 + cy1 * row1 + 2097152) / 4194304) 255⟩

/-- `calculate_structural_similarity` including the source's downscale branch:
when the first frame's longer side exceeds 800 px, both frames are resized to
the same destination size (so a shape mismatch cannot occur on that path, and
`cv2.resize` throws if the computed destination size is empty) and the
mean-difference similarity is taken on the resized pair.  The source resizes
the BGR frames and then converts to grayscale; this grayscale-grid model
resizes the grayscale grid, which coincides for channel-uniform pixels (such
as the pure 0/255 inputs below) and for bit-identical inputs.
`calculate_structural_similarity` above is the branch-free `≤ 800` px path;
`structural_similarity_agree` proves the two coincide there. -/
def calculate_structural_similarity_full (f1 f2 : Frame) : Except CvError ℚ :=
  if f1.pixels = [] ∨ f2.pixels = [] then .error .emptyInput
  else if 800 < max f1.height f1.width then
    let maxDim := max f1.height f1.width
    let nw := scaledDim f1.width maxDim
    let nh := scaledDim f1.height maxDim
    if nw = 0 ∨ nh = 0 then .error .resizeError
    else .ok (structuralSimQ (resizeLinear f1 nh nw) (resizeLinear f2 nh nw))
  else if sameShape f1 f2 then .ok (structuralSimQ f1 f2)
  else .error .sizeMismatch

/-! ### Configuration and the analysis pipeline -/

/-- The extractor's tunable parameters, with the defaults set in
`LectureFrameExtractor.__init__`. -/
structure Config where
  similarity_threshold : ℚ := 95/100
  min_stable_duration : ℚ := 5
  check_interval : ℚ := 1
  motion_threshold : ℚ := 20/100
  duplicate_threshold : ℚ := 98/100
  output_folder : String := "output/frames"
deriving DecidableEq, Repr

def defaultConfig : Config := {}

/-- Structural similarities of every chronologically adjacent pair
(`for i in range(len(frames_buffer) - 1)`). -/
def adjacentSims : List Frame → Except CvError (List ℚ)
  | [] => .ok []
  | [_] => .ok []
  | a :: b :: rest => do
      let s ← calculate_structural_similarity a b
      let ss ← adjacentSims (b :: rest)
      .ok (s :: ss)

/-- `np.mean` of a list of rationals. -/
def listMean (l : List ℚ) : ℚ := l.sum / (l.length : ℚ)

/-- `detect_fast_motion`: fewer than 3 buffered frames means no evidence of
motion; otherwise fast motion means the average adjacent structural similarity
drops strictly below `1 - motion_threshold`. -/
def detect_fast_motion (cfg : Config) (frames_buffer : List Frame) : Except CvError Bool :=
  if frames_buffer.length < 3 then .ok false
  else do
    let sims ← adjacentSims frames_buffer
    .ok (decide (listMean sims < 1 - cfg.motion_threshold))

/-- Body of the `for saved_frame in self.saved_frames_cache` loop of
`is_duplicate_frame`: histogram similarity is computed first (it can only fail
on empty input), then structural similarity; the frame is a duplicate as soon
as one cached frame exceeds `duplicate_threshold` on both measures. -/
def dupScan (cfg : Config) (f : Frame) : List Frame → Except CvError Bool
  | [] => .ok false
  | saved :: rest =>
      if f.pixels = [] ∨ saved.pixels = [] then .error .emptyInput
      else do
        let structSim ← calculate_structural_similarity f saved
        if HistSimExceeds f saved cfg.duplicate_threshold ∧
            cfg.duplicate_threshold < structSim then .ok true
        else dupScan cfg f rest

/-- `is_duplicate_frame`: `False` on an empty cache, otherwise scan the cache. -/
def is_duplicate_frame (cfg : Config) (f : Frame) (cache : List Frame) : Except CvError Bool :=
  if cache = [] then .ok false else dupScan cfg f cache

/-- `is_frame_stable`: with no reference frame the current frame is stable and
becomes the reference; otherwise the tick is "similar" only when both the
histogram similarity and the structural similarity strictly exceed
`similarity_threshold`, in which case the OLD reference frame is returned;
on a scene change the current frame is returned.  The `duration` argument is
accepted and ignored, as in the source. -/
def is_frame_stable (cfg : Config) (current_frame : Frame) (stable_frame : Option Frame)
    (duration : ℚ) : Except CvError (Bool × Frame) :=
  match stable_frame with
  | none => .ok (true, current_frame)
  | some sf =>
      if current_frame.pixels = [] ∨ sf.pixels = [] then .error .emptyInput
      else do
        let structSim ← calculate_structural_similarity current_frame sf
        if HistSimExceeds current_frame sf cfg.similarity_threshold ∧
            cfg.similarity_threshold < structSim then .ok (true, sf)
        else .ok (false, current_frame)

/-- Left-pad a decimal numeral to four digits (`{frame_number:04d}`). -/
def padNat4 (n : ℕ) : String :=
  let s := toString n
  if 4 ≤ s.length then s else String.mk (List.replicate (4 - s.length) '0') ++ s

/-- Two-digit zero-padded numeral for the fractional part. -/
def padNat2 (n : ℕ) : String :=
  let s := toString n
  if 2 ≤ s.length then s else String.mk (List.replicate (2 - s.length) '0') ++ s

/-- Render a non-negative rational with two decimals (`{timestamp:.2f}`,
modelled with round-half-up at exact half-hundredths). -/
def formatQ2 (t : ℚ) : String :=
  let h : ℤ := ⌊t * 100 + 1/2⌋
  toString (h / 100) ++ "." ++ padNat2 (h % 100).toNat

def mkFilename (frame_number : ℕ) (timestamp : ℚ) : String :=
  "frame_" ++ padNat4 frame_number ++ "_at_" ++ formatQ2 timestamp ++ "s.jpg"

/-- `ExtractedFrameRecord`: the dict appended to `self.extracted_frames`. -/
structure FrameInfo where
  frame_number : ℕ
  timestamp : ℚ
  filename : String
  filepath : String
deriving DecidableEq, Repr

/-- `save_frame`: duplicate check, then write the image and append the frame
to the cache and its record to the manifest list.  Returns the saved filepath,
or `none` for a duplicate (in which case nothing is appended). -/
def save_frame (cfg : Config) (frame : Frame) (timestamp : ℚ) (frame_number : ℕ)
    (cache : List Frame) (extracted : List FrameInfo) :
    Except CvError (Option String × List Frame × List FrameInfo) := do
  let dup ← is_duplicate_frame cfg frame cache
  if dup then .ok (none, cache, extracted)
  else
    let filename := mkFilename frame_number timestamp
    let filepath := cfg.output_folder ++ "/" ++ filename
    let info : FrameInfo :=
      { frame_number := frame_number, timestamp := timestamp,
        filename := filename, filepath := filepath }
    .ok (some filepath, cache ++ [frame], extracted ++ [info])

/-- The mutable state of one `extract_frames` run: the local loop variables
together with the instance attributes it mutates. -/
structure EState where
  stable_frame : Option Frame
  stable_start_time : ℚ
  last_saved_time : ℚ
  frame_count : ℕ
  frames_buffer : List Frame
  saved_frames_cache : List Frame
  extracted_frames : List FrameInfo
deriving DecidableEq, Repr

/-- Loop-variable initialization of `extract_frames` (`last_saved_time = -999`
so the first frame can be saved). -/
def initState : EState :=
  { stable_frame := none, stable_start_time := 0, last_saved_time := -999,
    frame_count := 0, frames_buffer := [], saved_frames_cache := [],
    extracted_frames := [] }

def bufferSize : ℕ := 5

/-- Rolling-buffer update: append, then `pop(0)` past capacity. -/
def pushBuffer (buf : List Frame) (f : Frame) : List Frame :=
  let b := buf ++ [f]
  if bufferSize < b.length then b.tail else b

/-- One analysis tick of the `extract_frames` loop: the body executed for a
frame that passes the `check_frame_interval` filter, at stream time `t`
(`cap.get(cv2.CAP_PROP_POS_MSEC) / 1000`). -/
def processTick (cfg : Config) (s : EState) (frame : Frame) (t : ℚ) :
    Except CvError EState := do
  let buf := pushBuffer s.frames_buffer frame
  let fast ← detect_fast_motion cfg buf
  if fast then
    .ok { s with frames_buffer := buf, stable_frame := none, stable_start_time := t }
  else do
    let r ← is_frame_stable cfg frame s.stable_frame (t - s.stable_start_time)
    if r.1 then
      let stable_duration := t - s.stable_start_time
      if cfg.min_stable_duration ≤ stable_duration ∧
          cfg.min_stable_duration ≤ t - s.last_saved_time then do
        let res ← save_frame cfg r.2 s.stable_start_time s.frame_count
          s.saved_frames_cache s.extracted_frames
        match res.1 with
        | some _ =>
            .ok { s with
                  frames_buffer := buf
                  stable_frame := some r.2
                  saved_frames_cache := res.2.1
                  extracted_frames := res.2.2
                  last_saved_time := s.stable_start_time
                  frame_count := s.frame_count + 1 }
        | none =>
            .ok { s with
                  frames_buffer := buf
                  stable_frame := some r.2
                  saved_frames_cache := res.2.1
                  extracted_frames := res.2.2 }
      else .ok { s with frames_buffer := buf }
    else
      .ok { s with
            frames_buffer := buf
            stable_frame := some r.2
            stable_start_time := t }

/-- Run the analysis loop over a list of ticks (the analyzed frames with their
stream times).  A comparison error aborts the run, as in the source, where no
handler surrounds the loop body (the `finally` clause only releases the
capture device before the exception continues to propagate, and `run`
re-raises it to the caller). -/
def runTicks (cfg : Config) : EState → List (Frame × ℚ) → Except CvError EState
  | s, [] => .ok s
  | s, (f, t) :: rest => do
      let s' ← processTick cfg s f t
      runTicks cfg s' rest

/-- `extract_frames` at tick granularity: returns the extracted-frame records
on success; a comparison error propagates to the caller. -/
def extract_frames (cfg : Config) (ticks : List (Frame × ℚ)) :
    Except CvError (List FrameInfo) := do
  let s ← runTicks cfg initState ticks
  .ok s.extracted_frames

/-- The JSON manifest written by `save_metadata`.  The `parameters` field is
the `'parameters'` dict, modelled as an association list in the order the
source writes its keys; the wall-clock `extraction_time` field is outside the
model. -/
structure Metadata where
  video_path : String
  total_frames_extracted : ℕ
  parameters : List (String × ℚ)
  frames : List FrameInfo
deriving DecidableEq, Repr

/-- `save_metadata`: the manifest content (note the parameters dict it writes
has exactly four entries). -/
def save_metadata (cfg : Config) (video_path : String) (extracted : List FrameInfo) :
    Metadata :=
  { video_path := video_path,
    total_frames_extracted := extracted.length,
    parameters :=
      [("similarity_threshold", cfg.similarity_threshold),
       ("min_stable_duration", cfg.min_stable_duration),
       ("check_interval", cfg.check_interval),
       ("motion_threshold", cfg.motion_threshold)],
    frames := extracted }

/-- Maximal pointwise difference: every aligned pixel pair differs by the full
intensity range (e.g. pure black against pure white). -/
def MaxPixelDiff (f1 f2 : Frame) : Prop :=
  List.Forall₂ (fun r1 r2 => List.Forall₂
    (fun (a b : ℕ) => ((a : ℤ) - (b : ℤ)).natAbs = 255) r1 r2) f1.rows f2.rows

/-! Concrete frames used as test inputs below. -/

/-- A 1x1 black frame. -/
def fA : Frame := ⟨[[0]]⟩

/-- A 1x2 frame, shape-incompatible with `fA`. -/
def fB : Frame := ⟨[[0, 0]]⟩

/-- A 1x2 frame whose pixel multiset equals that of `fD`. -/
def fC : Frame := ⟨[[10, 0]]⟩

/-- `fC` with its two pixels swapped: identical histogram, distinct frame. -/
def fD : Frame := ⟨[[0, 10]]⟩

/-- A 1x1 white frame. -/
def fW : Frame := ⟨[[255]]⟩

/-- A 2x1600 frame of two horizontal stripes of intensities `v0` (top) and
`v1` (bottom). -/
def stripes (v0 v1 : ℕ) : Frame :=
  ⟨[List.replicate 1600 v0, List.replicate 1600 v1]⟩

/-- A black-over-white stripe pair, wider than the 800 px bound, so the
structural comparison downscales it 2:1 before diffing. -/
def wideStripes : Frame := stripes 0 255

/-- The pixel-wise inverse of `wideStripes`: differs by 255 at every pixel. -/
def wideStripesInv : Frame := stripes 255 0

/-- A 1x801 black frame: beyond the 800 px bound with so degenerate an aspect
ratio that the computed destination height `int(1 * 800/801)` is 0, making
`cv2.resize` throw. -/
def thinFrame : Frame := ⟨[List.replicate 801 0]⟩

/-- The record produced by the first save of a run at timestamp 0. -/
def rec0 : FrameInfo :=
  { frame_number := 0, timestamp := 0, filename := "frame_0000_at_0.00s.jpg",
    filepath := "output/frames/frame_0000_at_0.00s.jpg" }

/-- The state reached after four ticks of the constant stream `fA` at times
1..4 (the tick at time 5 then performs the first save). -/
def preSaveState : EState :=
  { stable_frame := none, stable_start_time := 0, last_saved_time := -999,
    frame_count := 0, frames_buffer := [fA, fA, fA, fA], saved_frames_cache := [],
    extracted_frames := [] }

/-- The state reached right after that first save (tick at time 5). -/
def postSaveState : EState :=
  { stable_frame := some fA, stable_start_time := 0, last_saved_time := 0,
    frame_count := 1, frames_buffer := [fA, fA, fA, fA, fA], saved_frames_cache := [fA],
    extracted_frames := [rec0] }

/-! ### Supporting lemmas -/

theorem rowAbsDiff_self (r : List ℕ) : rowAbsDiff r r = 0 := by
  induction r with
  | nil => rfl
  | cons a l ih =>
      unfold rowAbsDiff at *
      simp only [List.zip_cons_cons, List.map_cons, List.sum_cons, ih, add_zero]
      simp

theorem framesAbsDiff_self (f : Frame) : framesAbsDiff f f = 0 := by
  unfold framesAbsDiff
  induction f.rows with
  | nil => rfl
  | cons r l ih =>
      simp only [List.zip_cons_cons, List.map_cons, List.sum_cons, ih, add_zero,
        rowAbsDiff_self]

theorem structuralSimQ_self (f : Frame) : structuralSimQ f f = 1 := by
  unfold structuralSimQ
  rw [framesAbsDiff_self]
  simp

theorem calculate_structural_similarity_self (f : Frame) (h : f.pixels ≠ []) :
    calculate_structural_similarity f f = .ok 1 := by
  unfold calculate_structural_similarity
  rw [if_neg (by simp [h]), if_pos ⟨rfl, rfl⟩, structuralSimQ_self]

theorem histS1_eq_of_binEq {f1 f2 : Frame} (h : ∀ v, histBin f1 v = histBin f2 v) :
    histS1 f2 = histS1 f1 := by
  unfold histS1
  exact Finset.sum_congr rfl (fun v _ => by rw [h v])

theorem histS11_eq_of_binEq {f1 f2 : Frame} (h : ∀ v, histBin f1 v = histBin f2 v) :
    histS11 f2 = histS11 f1 := by
  unfold histS11
  exact Finset.sum_congr rfl (fun v _ => by rw [h v])

theorem histS12_eq_of_binEq {f1 f2 : Frame} (h : ∀ v, histBin f1 v = histBin f2 v) :
    histS12 f1 f2 = histS11 f1 := by
  unfold histS12 histS11
  refine Finset.sum_congr rfl (fun v _ => ?_)
  rw [← h v]; ring

theorem histVar_eq_of_binEq {f1 f2 : Frame} (h : ∀ v, histBin f1 v = histBin f2 v) :
    histVar f2 = histVar f1 := by
  unfold histVar
  rw [histS11_eq_of_binEq h, histS1_eq_of_binEq h]

theorem histNum_eq_of_binEq {f1 f2 : Frame} (h : ∀ v, histBin f1 v = histBin f2 v) :
    histNum f1 f2 = histVar f1 := by
  unfold histNum histVar
  rw [histS12_eq_of_binEq h, histS1_eq_of_binEq h]
  ring

/-- Equal histograms give histogram correlation exactly 1 (this covers
bit-identical frames and, more generally, frames with permuted pixels). -/
theorem histCorrel_of_binEq {f1 f2 : Frame} (h : ∀ v, histBin f1 v = histBin f2 v) :
    histCorrel f1 f2 = 1 := by
  have hvar : histVar f2 = histVar f1 := histVar_eq_of_binEq h
  have hnum : histNum f1 f2 = histVar f1 := histNum_eq_of_binEq h
  have hden : histDen2 f1 f2 = histVar f1 * histVar f1 := by
    unfold histDen2; rw [hvar]
  unfold histCorrel
  rcases eq_or_lt_of_le (histVar_nonneg f1) with hz | hpos
  · rw [if_pos (by rw [hden, ← hz, mul_zero])]
  · have hne : histDen2 f1 f2 ≠ 0 := by
      rw [hden]; exact ne_of_gt (mul_pos hpos hpos)
    rw [if_neg hne, hnum]
    have hcast : ((histDen2 f1 f2 : ℚ) : ℝ) =
        ((histVar f1 : ℚ) : ℝ) * ((histVar f1 : ℚ) : ℝ) := by
      rw [hden]; push_cast; ring
    have hposR : (0:ℝ) < ((histVar f1 : ℚ) : ℝ) := by exact_mod_cast hpos
    rw [hcast, Real.sqrt_mul_self hposR.le, div_self (ne_of_gt hposR)]

theorem histCorrel_self (f : Frame) : histCorrel f f = 1 :=
  histCorrel_of_binEq (fun _ => rfl)

theorem HistSimExceeds_of_binEq {f1 f2 : Frame} {t : ℚ}
    (h : ∀ v, histBin f1 v = histBin f2 v) (ht : t < 1) :
    HistSimExceeds f1 f2 t := by
  unfold HistSimExceeds
  rw [histCorrel_of_binEq h]
  exact_mod_cast ht

theorem calculate_frame_similarity_self (f : Frame) (h : f.pixels ≠ []) :
    calculate_frame_similarity f f = .ok 1 := by
  unfold calculate_frame_similarity
  rw [if_neg (by simp [h]), histCorrel_self]

theorem rowAbsDiff_of_maxDiff {r1 r2 : List ℕ}
    (h : List.Forall₂ (fun (a b : ℕ) => ((a : ℤ) - (b : ℤ)).natAbs = 255) r1 r2) :
    rowAbsDiff r1 r2 = 255 * r1.length := by
  induction h with
  | nil => rfl
  | cons hab htl ih =>
      unfold rowAbsDiff at *
      simp only [List.zip_cons_cons, List.map_cons, List.sum_cons, List.length_cons, ih, hab]
      ring

theorem absDiffRows_of_maxDiff {L1 L2 : List (List ℕ)}
    (h : List.Forall₂ (fun r1 r2 => List.Forall₂
      (fun (a b : ℕ) => ((a : ℤ) - (b : ℤ)).natAbs = 255) r1 r2) L1 L2) :
    ((L1.zip L2).map (fun p => rowAbsDiff p.1 p.2)).sum = 255 * L1.join.length := by
  induction h with
  | nil => rfl
  | cons hr htl ih =>
      simp only [List.zip_cons_cons, List.map_cons, List.sum_cons, List.join_cons,
        List.length_append, ih, rowAbsDiff_of_maxDiff hr]
      ring

theorem framesAbsDiff_of_maxDiff {f1 f2 : Frame} (h : MaxPixelDiff f1 f2) :
    framesAbsDiff f1 f2 = 255 * f1.pixelCount :=
  absDiffRows_of_maxDiff h

theorem join_length_eq_of_maxDiff {L1 L2 : List (List ℕ)}
    (h : List.Forall₂ (fun r1 r2 => List.Forall₂
      (fun (a b : ℕ) => ((a : ℤ) - (b : ℤ)).natAbs = 255) r1 r2) L1 L2) :
    L1.join.length = L2.join.length := by
  induction h with
  | nil => rfl
  | cons hr htl ih =>
      simp only [List.join_cons, List.length_append, ih, hr.length_eq]

theorem pixels_length_eq_of_maxDiff {f1 f2 : Frame} (h : MaxPixelDiff f1 f2) :
    f1.pixels.length = f2.pixels.length :=
  join_length_eq_of_maxDiff h

theorem heads_length_eq_of_maxDiff {L1 L2 : List (List ℕ)}
    (h : List.Forall₂ (fun r1 r2 => List.Forall₂
      (fun (a b : ℕ) => ((a : ℤ) - (b : ℤ)).natAbs = 255) r1 r2) L1 L2) :
    (L1.headD []).length = (L2.headD []).length := by
  cases h with
  | nil => rfl
  | cons hr htl => simpa using hr.length_eq

theorem sameShape_of_maxDiff {f1 f2 : Frame} (h : MaxPixelDiff f1 f2) : sameShape f1 f2 :=
  ⟨List.Forall₂.length_eq h, heads_length_eq_of_maxDiff h⟩

/-- On the branch-free `≤ 800` px path, a maximally-differing pair gives
structural similarity exactly 0. -/
theorem structural_maxdiff_zero (f1 f2 : Frame) (h1 : f1.pixels ≠ [])
    (hmax : MaxPixelDiff f1 f2) :
    calculate_structural_similarity f1 f2 = .ok 0 := by
  have h2 : f2.pixels ≠ [] := by
    intro hnil
    apply h1
    have := pixels_length_eq_of_maxDiff hmax
    rw [hnil] at this
    exact List.length_eq_zero.mp this
  unfold calculate_structural_similarity
  rw [if_neg (by simp [h1, h2]), if_pos (sameShape_of_maxDiff hmax)]
  unfold structuralSimQ
  rw [framesAbsDiff_of_maxDiff hmax]
  have hc0 : f1.pixelCount ≠ 0 := by
    simpa [Frame.pixelCount, List.length_eq_zero] using h1
  have hc : (f1.pixelCount : ℚ) ≠ 0 := by exact_mod_cast hc0
  simp only [Except.ok.injEq]
  push_cast
  field_simp

/-- Within the `≤ 800` px no-resize bound the full primitive takes the
branch-free path. -/
theorem structural_similarity_agree (f1 f2 : Frame)
    (hh : f1.height ≤ 800) (hw : f1.width ≤ 800) :
    calculate_structural_similarity_full f1 f2 = calculate_structural_similarity f1 f2 := by
  unfold calculate_structural_similarity_full calculate_structural_similarity
  by_cases he : f1.pixels = [] ∨ f2.pixels = []
  · rw [if_pos he, if_pos he]
  · rw [if_neg he, if_neg he, if_neg (not_lt.mpr (Nat.max_le.mpr ⟨hh, hw⟩))]

theorem forall2_replicate {α : Type} {R : α → α → Prop} {a b : α} (h : R a b) :
    ∀ n, List.Forall₂ R (List.replicate n a) (List.replicate n b)
  | 0 => List.Forall₂.nil
  | n + 1 => List.Forall₂.cons h (forall2_replicate h n)

/-- The stripe pair and its inverse differ by the full intensity range at
every pixel. -/
theorem maxPixelDiff_stripes : MaxPixelDiff wideStripes wideStripesInv :=
  List.Forall₂.cons (forall2_replicate (by decide) 1600)
    (List.Forall₂.cons (forall2_replicate (by decide) 1600) List.Forall₂.nil)

theorem getD_replicate_of_lt {α : Type} (a d : α) :
    ∀ {n i : ℕ}, i < n → (List.replicate n a).getD i d = a := by
  intro n
  induction n with
  | zero => intro i h; omega
  | succ m ih =>
      intro i h
      cases i with
      | zero => rfl
      | succ j => exact ih (by omega)

/-- The base index of an INTER_LINEAR tap stays inside the source axis. -/
theorem linearTap_fst_lt {srcLen : ℕ} (hs : 0 < srcLen) (dstLen d : ℕ) :
    (linearTap srcLen dstLen d).1 < srcLen := by
  simp only [linearTap]
  by_cases h1 : ⌊((d : ℚ) + 1/2) * srcLen / dstLen - 1/2⌋ < 0
  · rw [if_pos h1]; exact hs
  · rw [if_neg h1]
    by_cases h2 : (srcLen : ℤ) - 1 ≤ ⌊((d : ℚ) + 1/2) * srcLen / dstLen - 1/2⌋
    · rw [if_pos h2]; omega
    · rw [if_neg h2]; simp only []; omega

/-- The fractional offset of an INTER_LINEAR tap lies in `[0, 1)`. -/
theorem linearTap_snd_bounds (srcLen dstLen d : ℕ) :
    0 ≤ (linearTap srcLen dstLen d).2 ∧ (linearTap srcLen dstLen d).2 < 1 := by
  simp only [linearTap]
  by_cases h1 : ⌊((d : ℚ) + 1/2) * srcLen / dstLen - 1/2⌋ < 0
  · rw [if_pos h1]; norm_num
  · rw [if_neg h1]
    by_cases h2 : (srcLen : ℤ) - 1 ≤ ⌊((d : ℚ) + 1/2) * srcLen / dstLen - 1/2⌋
    · rw [if_pos h2]; norm_num
    · rw [if_neg h2]
      constructor
      · simpa using Int.fract_nonneg (((d : ℚ) + 1/2) * srcLen / dstLen - 1/2)
      · simpa using Int.fract_lt_one (((d : ℚ) + 1/2) * srcLen / dstLen - 1/2)

/-- A fixed-point interpolation weight never exceeds the scale 2048. -/
theorem fixedWeight_le {u : ℚ} (h0 : 0 ≤ u) (h1 : u < 1) : fixedWeight u ≤ 2048 := by
  unfold fixedWeight
  have hlt : ⌊u * 2048 + 1/2⌋ < 2049 := by
    rw [Int.floor_lt]
    push_cast
    nlinarith
  omega

set_option maxRecDepth 10000 in
unseal Rat.add Rat.sub Rat.mul Rat.inv in
/-- Downscaling a 2x1600 stripe pair to 1x800: the vertical tap averages the
two rows with equal weights 1024/1024, and since each row is constant the
horizontal taps are inert, so every output pixel is the same blend of `v0` and
`v1` whatever the column. -/
theorem resize_stripes (v0 v1 : ℕ) :
    resizeLinear (stripes v0 v1) 1 800 =
      ⟨[(List.range 800).map fun _ =>
          min ((1024 * (2048 * v0) + 1024 * (2048 * v1) + 2097152) / 4194304) 255]⟩ := by
  unfold resizeLinear
  congr 1
  rw [show List.range 1 = [0] from rfl]
  simp only [List.map_cons, List.map_nil]
  congr 1
  apply List.map_congr_left
  intro c hc
  have hh : Frame.height (stripes v0 v1) = 2 := rfl
  have hw : Frame.width (stripes v0 v1) = 1600 := by
    simp [stripes, Frame.width]
  have hty : linearTap 2 1 0 = (0, (1/2 : ℚ)) := by decide
  rw [hh, hw, hty]
  have hfx := linearTap_fst_lt (by norm_num : (0:ℕ) < 1600) 800 c
  have hu := linearTap_snd_bounds 1600 800 c
  have hcx := fixedWeight_le hu.1 hu.2
  have hp0 : ∀ j, j < 1600 → Frame.pixAt (stripes v0 v1) 0 j = v0 := by
    intro j hj
    show (List.replicate 1600 v0).getD j 0 = v0
    exact getD_replicate_of_lt v0 0 hj
  have hp1 : ∀ j, j < 1600 → Frame.pixAt (stripes v0 v1) 1 j = v1 := by
    intro j hj
    show (List.replicate 1600 v1).getD j 0 = v1
    exact getD_replicate_of_lt v1 0 hj
  have hx1 : min ((linearTap 1600 800 c).1 + 1) (1600 - 1) < 1600 := by omega
  have hfw : fixedWeight (1/2 : ℚ) = 1024 := by decide
  simp only [hfw, show (0 + 1) ⊓ (2 - 1) = 1 from rfl,
    show (2048 : ℕ) - 1024 = 1024 from rfl]
  rw [hp0 _ hfx, hp0 _ hx1, hp1 _ hfx, hp1 _ hx1]
  have hsum : ∀ v : ℕ,
      (2048 - fixedWeight (linearTap 1600 800 c).2) * v +
        fixedWeight (linearTap 1600 800 c).2 * v = 2048 * v := by
    intro v
    rw [← Nat.add_mul, Nat.sub_add_cancel hcx]
  rw [hsum v0, hsum v1]

set_option maxRecDepth 10000 in
unseal Rat.add Rat.sub Rat.mul Rat.inv in
/-- C9 counterexample: the claim fails beyond the 800 px no-resize bound.  The
2x1600 black-over-white stripe pair and its pixel-wise inverse differ
maximally in every pixel, yet the structural similarity primitive first
downscales both 2:1 (the bilinear vertical tap averages the 0/255 rows with
equal weights, so both frames downscale to the same all-128 row), hence it
returns exactly 1, not 0; and on a bit-identical 1x801 pair the primitive does
not return at all: the computed destination height is 0 and the resize
throws. -/
theorem maxdiff_beyond_bound_cex :
    MaxPixelDiff wideStripes wideStripesInv ∧
    800 < max wideStripes.height wideStripes.width ∧
    calculate_structural_similarity_full wideStripes wideStripesInv = .ok 1 ∧
    calculate_structural_similarity_full thinFrame thinFrame = .error .resizeError := by
  refine ⟨maxPixelDiff_stripes, by decide, ?_, by decide⟩
  show calculate_structural_similarity_full wideStripes wideStripesInv = .ok 1
  unfold calculate_structural_similarity_full
  rw [if_neg (by decide), if_pos (by decide), if_neg (by decide)]
  have h1 : scaledDim wideStripes.height (max wideStripes.height wideStripes.width) = 1 := by
    decide
  have h8 : scaledDim wideStripes.width (max wideStripes.height wideStripes.width) = 800 := by
    decide
  rw [h1, h8]
  rw [show wideStripes = stripes 0 255 from rfl, show wideStripesInv = stripes 255 0 from rfl,
    resize_stripes 0 255, resize_stripes 255 0]
  norm_num [structuralSimQ_self]

/-- C9 (amended): for bit-identical frames the histogram similarity is exactly
1, and within the extractor's no-resize bound (both dimensions of the first
frame at most 800 px) the structural similarity of bit-identical frames is
exactly 1 and of maximally-differing frames exactly 0; beyond the bound the
frames are bilinearly downscaled first, which voids both structural
guarantees.  The frames are required to be non-empty rasters, since the
comparisons throw on an empty image. -/
theorem similarity_identity_extremes :
    (∀ f : Frame, f.pixels ≠ [] →
      calculate_frame_similarity f f = .ok 1 ∧
      (f.height ≤ 800 → f.width ≤ 800 →
        calculate_structural_similarity_full f f = .ok 1)) ∧
    (∀ f1 f2 : Frame, f1.pixels ≠ [] → f1.height ≤ 800 → f1.width ≤ 800 →
      MaxPixelDiff f1 f2 →
      calculate_structural_similarity_full f1 f2 = .ok 0) := by
  constructor
  · intro f h
    refine ⟨calculate_frame_similarity_self f h, fun hh hw => ?_⟩
    rw [structural_similarity_agree f f hh hw]
    exact calculate_structural_similarity_self f h
  · intro f1 f2 h1 hh hw hmax
    rw [structural_similarity_agree f1 f2 hh hw]
    exact structural_maxdiff_zero f1 f2 h1 hmax

/-- C9 witness: the 1x1 black frame compared with itself, and black against
white. -/
theorem similarity_identity_extremes_witness :
    calculate_frame_similarity fA fA = .ok 1 ∧
    calculate_structural_similarity_full fA fA = .ok 1 ∧
    calculate_structural_similarity_full fA fW = .ok 0 :=
  ⟨(similarity_identity_extremes.1 fA (by decide)).1,
   (similarity_identity_extremes.1 fA (by decide)).2 (by decide) (by decide),
   similarity_identity_extremes.2 fA fW (by decide) (by decide) (by decide)
     (List.Forall₂.cons (List.Forall₂.cons (by decide) List.Forall₂.nil)
       List.Forall₂.nil)⟩

set_option maxRecDepth 100000 in
unseal Rat.add Rat.sub Rat.mul Rat.inv in
/-- C3: a synthetic stream of one constant frame, one tick per second for
`min_stable_duration + check_interval = 6` seconds under the default
configuration, produces exactly one extracted record, with timestamp 0 (the
stream time at which the candidate run started). -/
theorem single_stable_slide_saved_once :
    (extract_frames defaultConfig
        [(fA, 1), (fA, 2), (fA, 3), (fA, 4), (fA, 5), (fA, 6)]).map
      (fun l => l.map fun r => (r.frame_number, r.timestamp)) =
    .ok [(0, 0)] := by
  decide

set_option maxRecDepth 100000 in
unseal Rat.add Rat.sub Rat.mul Rat.inv in
/-- C7 counterexample: a comparison failure (size mismatch on the third tick,
raised inside the motion gate's structural comparison) aborts the extraction
run with that error instead of being treated as "not similar"; the engine can
therefore raise errors other than the source-open failure to its caller. -/
theorem comparison_error_reaches_caller :
    runTicks defaultConfig initState [(fA, 1), (fA, 2), (fB, 3)] =
      .error .sizeMismatch ∧
    extract_frames defaultConfig [(fA, 1), (fA, 2), (fB, 3)] =
      .error .sizeMismatch := by
  decide

/-- C7 (amended): a comparison error at any tick is not absorbed: the run
aborts immediately and the error propagates to the caller. -/
theorem comparison_error_propagates (cfg : Config) (s : EState) (f : Frame) (t : ℚ)
    (ts : List (Frame × ℚ)) (e : CvError)
    (h : processTick cfg s f t = .error e) :
    runTicks cfg s ((f, t) :: ts) = .error e := by
  unfold runTicks
  rw [h]
  rfl

set_option maxRecDepth 100000 in
unseal Rat.add Rat.sub Rat.mul Rat.inv in
/-- C7 witness: the mismatched tick of the counterexample run, fed through
`comparison_error_propagates`. -/
theorem comparison_error_propagates_witness :
    runTicks defaultConfig
      { initState with frames_buffer := [fA, fA] } [(fB, 3)] =
      .error .sizeMismatch :=
  comparison_error_propagates defaultConfig
    { initState with frames_buffer := [fA, fA] } fB 3 [] .sizeMismatch (by decide)

/-- C8 counterexample: the parameters dict of the emitted manifest has no
`duplicate_threshold` entry (its keys are exactly the other four). -/
theorem manifest_omits_duplicate_threshold :
    ((save_metadata defaultConfig "video.mp4" []).parameters.map Prod.fst =
      ["similarity_threshold", "min_stable_duration", "check_interval",
       "motion_threshold"]) ∧
    "duplicate_threshold" ∉
      ((save_metadata defaultConfig "video.mp4" []).parameters.map Prod.fst) := by
  constructor
  · rfl
  · decide

/-- C8 (amended): the manifest contains the ordered extracted records and four
of the five configuration values (similarity threshold, minimum stable
duration, check interval, motion threshold); the duplicate threshold is
omitted. -/
theorem save_metadata_fields (cfg : Config) (vp : String) (ext : List FrameInfo) :
    (save_metadata cfg vp ext).frames = ext ∧
    (save_metadata cfg vp ext).total_frames_extracted = ext.length ∧
    (save_metadata cfg vp ext).parameters =
      [("similarity_threshold", cfg.similarity_threshold),
       ("min_stable_duration", cfg.min_stable_duration),
       ("check_interval", cfg.check_interval),
       ("motion_threshold", cfg.motion_threshold)] :=
  ⟨rfl, rfl, rfl⟩

/-! ### The tick-level behavior of the driving loop -/

theorem except_bind_ok {e a b : Type} (x : a) (f : a → Except e b) :
    (Except.ok x >>= f : Except e b) = f x := rfl

theorem except_bind_error {e a b : Type} (err : e) (f : a → Except e b) :
    ((Except.error err : Except e a) >>= f) = .error err := rfl

/-- A successful `save_frame` either reports a duplicate and leaves both the
cache and the record list untouched, or returns a filepath and appends exactly
the frame to the cache and one record to the list. -/
theorem save_frame_cases (cfg : Config) (frame : Frame) (ts : ℚ) (n : ℕ)
    (cache : List Frame) (ext : List FrameInfo)
    (r : Option String × List Frame × List FrameInfo)
    (h : save_frame cfg frame ts n cache ext = .ok r) :
    (r.1 = none ∧ r.2.1 = cache ∧ r.2.2 = ext) ∨
    (∃ p info, r.1 = some p ∧ r.2.1 = cache ++ [frame] ∧ r.2.2 = ext ++ [info]) := by
  unfold save_frame at h
  cases hd : is_duplicate_frame cfg frame cache with
  | error e => rw [hd, except_bind_error] at h; exact absurd h (by simp)
  | ok dup =>
      rw [hd, except_bind_ok] at h
      cases dup with
      | true =>
          rw [if_pos rfl] at h
          injection h with h
          subst h
          exact Or.inl ⟨rfl, rfl, rfl⟩
      | false =>
          rw [if_neg (by simp)] at h
          injection h with h
          subst h
          exact Or.inr ⟨_, _, rfl, rfl, rfl⟩

/-- Every successful tick either leaves the cache and the record list
unchanged or appends exactly one entry to each. -/
theorem processTick_cache_ext (cfg : Config) (s : EState) (F : Frame) (t : ℚ)
    (s' : EState) (hok : processTick cfg s F t = .ok s') :
    (s'.saved_frames_cache = s.saved_frames_cache ∧
      s'.extracted_frames = s.extracted_frames) ∨
    (∃ fr rec, s'.saved_frames_cache = s.saved_frames_cache ++ [fr] ∧
      s'.extracted_frames = s.extracted_frames ++ [rec]) := by
  simp only [processTick] at hok
  cases hm : detect_fast_motion cfg (pushBuffer s.frames_buffer F) with
  | error e => rw [hm, except_bind_error] at hok; exact absurd hok (by simp)
  | ok fast =>
      rw [hm, except_bind_ok] at hok
      cases fast with
      | true =>
          rw [if_pos rfl] at hok
          injection hok with hok
          subst hok
          exact Or.inl ⟨rfl, rfl⟩
      | false =>
          rw [if_neg (by simp)] at hok
          cases hs : is_frame_stable cfg F s.stable_frame (t - s.stable_start_time) with
          | error e => rw [hs, except_bind_error] at hok; exact absurd hok (by simp)
          | ok r =>
              rw [hs, except_bind_ok] at hok
              cases hr1 : r.1 with
              | false =>
                  rw [hr1, if_neg (by simp)] at hok
                  injection hok with hok
                  subst hok
                  exact Or.inl ⟨rfl, rfl⟩
              | true =>
                  rw [hr1, if_pos rfl] at hok
                  by_cases hcond : cfg.min_stable_duration ≤ t - s.stable_start_time ∧
                      cfg.min_stable_duration ≤ t - s.last_saved_time
                  · rw [if_pos hcond] at hok
                    cases hsv : save_frame cfg r.2 s.stable_start_time s.frame_count
                        s.saved_frames_cache s.extracted_frames with
                    | error e => rw [hsv, except_bind_error] at hok; exact absurd hok (by simp)
                    | ok res =>
                        rw [hsv, except_bind_ok] at hok
                        rcases save_frame_cases _ _ _ _ _ _ _ hsv with
                          ⟨hnone, hc, he⟩ | ⟨p, info, hsome, hc, he⟩
                        · rw [hnone] at hok
                          simp only [] at hok
                          injection hok with hok
                          subst hok
                          exact Or.inl ⟨hc, he⟩
                        · cases hres : res.1 with
                          | none =>
                              rw [hres] at hok
                              simp only [] at hok
                              injection hok with hok
                              subst hok
                              exact Or.inr ⟨r.2, info, by simpa using hc, by simpa using he⟩
                          | some q =>
                              rw [hres] at hok
                              simp only [] at hok
                              injection hok with hok
                              subst hok
                              exact Or.inr ⟨r.2, info, by simpa using hc, by simpa using he⟩
                  · rw [if_neg hcond] at hok
                    injection hok with hok
                    subst hok
                    exact Or.inl ⟨rfl, rfl⟩

/-- A tick that changed the record list (performed an actual save) set
`last_saved_time` to the run's stable-start time, not to the tick time. -/
theorem processTick_saved_lastSaved (cfg : Config) (s : EState) (F : Frame) (t : ℚ)
    (s' : EState) (hok : processTick cfg s F t = .ok s')
    (hne : s'.extracted_frames ≠ s.extracted_frames) :
    s'.last_saved_time = s.stable_start_time := by
  simp only [processTick] at hok
  cases hm : detect_fast_motion cfg (pushBuffer s.frames_buffer F) with
  | error e => rw [hm, except_bind_error] at hok; exact absurd hok (by simp)
  | ok fast =>
      rw [hm, except_bind_ok] at hok
      cases fast with
      | true =>
          rw [if_pos rfl] at hok
          injection hok with hok
          subst hok
          exact absurd rfl hne
      | false =>
          rw [if_neg (by simp)] at hok
          cases hs : is_frame_stable cfg F s.stable_frame (t - s.stable_start_time) with
          | error e => rw [hs, except_bind_error] at hok; exact absurd hok (by simp)
          | ok r =>
              rw [hs, except_bind_ok] at hok
              cases hr1 : r.1 with
              | false =>
                  rw [hr1, if_neg (by simp)] at hok
                  injection hok with hok
                  subst hok
                  exact absurd rfl hne
              | true =>
                  rw [hr1, if_pos rfl] at hok
                  by_cases hcond : cfg.min_stable_duration ≤ t - s.stable_start_time ∧
                      cfg.min_stable_duration ≤ t - s.last_saved_time
                  · rw [if_pos hcond] at hok
                    cases hsv : save_frame cfg r.2 s.stable_start_time s.frame_count
                        s.saved_frames_cache s.extracted_frames with
                    | error e => rw [hsv, except_bind_error] at hok; exact absurd hok (by simp)
                    | ok res =>
                        rw [hsv, except_bind_ok] at hok
                        rcases save_frame_cases _ _ _ _ _ _ _ hsv with
                          ⟨hnone, hc, he⟩ | ⟨p, info, hsome, hc, he⟩
                        · rw [hnone] at hok
                          simp only [] at hok
                          injection hok with hok
                          subst hok
                          exact absurd he hne
                        · rw [hsome] at hok
                          simp only [] at hok
                          injection hok with hok
                          subst hok
                          rfl
                  · rw [if_neg hcond] at hok
                    injection hok with hok
                    subst hok
                    exact absurd rfl hne

/-- The cache/record length equality is preserved along any successful run. -/
theorem runTicks_length (cfg : Config) (ticks : List (Frame × ℚ)) :
    ∀ s s' : EState, runTicks cfg s ticks = .ok s' →
      s.saved_frames_cache.length = s.extracted_frames.length →
      s'.saved_frames_cache.length = s'.extracted_frames.length := by
  induction ticks with
  | nil =>
      intro s s' h hlen
      unfold runTicks at h
      injection h with h
      subst h
      exact hlen
  | cons ft rest ih =>
      obtain ⟨f, t⟩ := ft
      intro s s' h hlen
      unfold runTicks at h
      cases hp : processTick cfg s f t with
      | error e => rw [hp, except_bind_error] at h; exact absurd h (by simp)
      | ok s1 =>
          rw [hp, except_bind_ok] at h
          refine ih s1 s' h ?_
          rcases processTick_cache_ext cfg s f t s1 hp with ⟨hc, he⟩ | ⟨fr, rec, hc, he⟩
          · rw [hc, he]; exact hlen
          · rw [hc, he]; simp [hlen]

set_option maxRecDepth 100000 in
unseal Rat.add Rat.sub Rat.mul Rat.inv in
/-- C1 counterexample: a tick whose frame `fD` is classified similar to the
existing candidate `fC` (both similarity scores strictly exceed the
threshold), after which the persisted candidate is still `fC` — it was NOT
replaced by the incoming frame `fD`. -/
theorem similar_tick_not_refreshed_cex :
    (HistSimExceeds fD fC defaultConfig.similarity_threshold ∧
      defaultConfig.similarity_threshold < structuralSimQ fD fC) ∧
    is_frame_stable defaultConfig fD (some fC) 1 = .ok (true, fC) ∧
    processTick defaultConfig { initState with stable_frame := some fC } fD 1 =
      .ok { initState with stable_frame := some fC, frames_buffer := [fD] } ∧
    fC ≠ fD := by
  decide

/-- C1 (amended): on an analysis tick where the incoming frame is classified
as similar to the existing candidate, the tracker keeps the EXISTING candidate
frame (the incoming frame is discarded as representative) and leaves the
stable-start time unchanged. -/
theorem similar_tick_keeps_candidate (cfg : Config) (s : EState) (F c : Frame) (t : ℚ)
    (hc : s.stable_frame = some c)
    (hm : detect_fast_motion cfg (pushBuffer s.frames_buffer F) = .ok false)
    (hsim : is_frame_stable cfg F s.stable_frame (t - s.stable_start_time) = .ok (true, c))
    (hsave : ∃ r, save_frame cfg c s.stable_start_time s.frame_count
        s.saved_frames_cache s.extracted_frames = .ok r) :
    ∃ s', processTick cfg s F t = .ok s' ∧ s'.stable_frame = some c ∧
      s'.stable_start_time = s.stable_start_time := by
  obtain ⟨r, hr⟩ := hsave
  simp only [processTick]
  rw [hm, except_bind_ok, if_neg (by simp), hsim, except_bind_ok, if_pos rfl]
  by_cases hcond : cfg.min_stable_duration ≤ t - s.stable_start_time ∧
      cfg.min_stable_duration ≤ t - s.last_saved_time
  · rw [if_pos hcond, hr, except_bind_ok]
    cases hres : r.1 with
    | some p => exact ⟨_, rfl, rfl, rfl⟩
    | none => exact ⟨_, rfl, rfl, rfl⟩
  · rw [if_neg hcond]
    exact ⟨_, rfl, hc, rfl⟩

set_option maxRecDepth 100000 in
unseal Rat.add Rat.sub Rat.mul Rat.inv in
/-- C1 witness: a similar tick on the candidate `fC` with incoming `fD`. -/
theorem similar_tick_keeps_candidate_witness :
    ∃ s', processTick defaultConfig { initState with stable_frame := some fC } fD 1 =
        .ok s' ∧ s'.stable_frame = some fC ∧
      s'.stable_start_time =
        ({ initState with stable_frame := some fC } : EState).stable_start_time :=
  similar_tick_keeps_candidate defaultConfig { initState with stable_frame := some fC }
    fD fC 1 rfl (by decide) (by decide)
    ⟨(some "output/frames/frame_0000_at_0.00s.jpg", [fC],
      [{ frame_number := 0, timestamp := 0, filename := "frame_0000_at_0.00s.jpg",
         filepath := "output/frames/frame_0000_at_0.00s.jpg" }]), by decide⟩

set_option maxRecDepth 100000 in
unseal Rat.add Rat.sub Rat.mul Rat.inv in
/-- C2 counterexample: on the first tick (no candidate, frame `fA` at time 1)
the resulting state still has no candidate and `since` is still 0, not 1: the
incoming frame was not persisted and the stable-start time was not set to the
tick time. -/
theorem no_candidate_not_persisted_cex :
    initState.stable_frame = none ∧
    processTick defaultConfig initState fA 1 =
      .ok { initState with frames_buffer := [fA] } ∧
    ({ initState with frames_buffer := [fA] } : EState).stable_frame ≠ some fA ∧
    ({ initState with frames_buffer := [fA] } : EState).stable_start_time ≠ 1 := by
  decide

/-- C2 (amended): on a tick with no existing candidate the frame is classified
stable with itself as reference, but the candidate is persisted (set to F)
only when the save condition fires at that very tick; the stable-start time
`since` is never updated on this path. -/
theorem no_candidate_tick (cfg : Config) (s : EState) (F : Frame) (t : ℚ)
    (hc : s.stable_frame = none)
    (hm : detect_fast_motion cfg (pushBuffer s.frames_buffer F) = .ok false)
    (hsave : ∃ r, save_frame cfg F s.stable_start_time s.frame_count
        s.saved_frames_cache s.extracted_frames = .ok r) :
    ∃ s', processTick cfg s F t = .ok s' ∧
      s'.stable_start_time = s.stable_start_time ∧
      ((cfg.min_stable_duration ≤ t - s.stable_start_time ∧
          cfg.min_stable_duration ≤ t - s.last_saved_time) → s'.stable_frame = some F) ∧
      (¬(cfg.min_stable_duration ≤ t - s.stable_start_time ∧
          cfg.min_stable_duration ≤ t - s.last_saved_time) → s'.stable_frame = none) := by
  obtain ⟨r, hr⟩ := hsave
  simp only [processTick]
  rw [hm, except_bind_ok, if_neg (by simp), hc]
  rw [show is_frame_stable cfg F none (t - s.stable_start_time) = .ok (true, F) from rfl,
    except_bind_ok, if_pos rfl]
  by_cases hcond : cfg.min_stable_duration ≤ t - s.stable_start_time ∧
      cfg.min_stable_duration ≤ t - s.last_saved_time
  · rw [if_pos hcond, hr, except_bind_ok]
    cases hres : r.1 with
    | some p => exact ⟨_, rfl, rfl, fun _ => rfl, fun h => absurd hcond h⟩
    | none => exact ⟨_, rfl, rfl, fun _ => rfl, fun h => absurd hcond h⟩
  · rw [if_neg hcond]
    exact ⟨_, rfl, rfl, fun h => absurd h hcond, fun _ => rfl⟩

set_option maxRecDepth 100000 in
unseal Rat.add Rat.sub Rat.mul Rat.inv in
/-- C2 witness: the first tick of a run, where the save condition does not
hold, so the candidate stays empty. -/
theorem no_candidate_tick_witness :
    ∃ s', processTick defaultConfig initState fA 1 = .ok s' ∧
      s'.stable_start_time = initState.stable_start_time ∧
      ((defaultConfig.min_stable_duration ≤ 1 - initState.stable_start_time ∧
          defaultConfig.min_stable_duration ≤ 1 - initState.last_saved_time) →
        s'.stable_frame = some fA) ∧
      (¬(defaultConfig.min_stable_duration ≤ 1 - initState.stable_start_time ∧
          defaultConfig.min_stable_duration ≤ 1 - initState.last_saved_time) →
        s'.stable_frame = none) :=
  no_candidate_tick defaultConfig initState fA 1 rfl (by decide)
    ⟨(some "output/frames/frame_0000_at_0.00s.jpg", [fA],
      [{ frame_number := 0, timestamp := 0, filename := "frame_0000_at_0.00s.jpg",
         filepath := "output/frames/frame_0000_at_0.00s.jpg" }]), by decide⟩

/-- C4: with fewer than 3 buffered frames `detect_fast_motion` always returns
`false`; with at least 3, it returns `true` iff the mean of the structural
similarities of all chronologically adjacent pairs is strictly below
`1 - motion_threshold`.  It is a pure function of the buffer (in this
embedding it is literally a function, with no state). -/
theorem detect_fast_motion_spec (cfg : Config) :
    (∀ buf : List Frame, buf.length < 3 → detect_fast_motion cfg buf = .ok false) ∧
    (∀ (buf : List Frame) (sims : List ℚ), 3 ≤ buf.length →
      adjacentSims buf = .ok sims →
      (detect_fast_motion cfg buf = .ok true ↔
        listMean sims < 1 - cfg.motion_threshold)) := by
  constructor
  · intro buf h
    unfold detect_fast_motion
    rw [if_pos h]
  · intro buf sims h3 hsims
    unfold detect_fast_motion
    rw [if_neg (not_lt.mpr h3), hsims, except_bind_ok]
    constructor
    · intro h
      injection h with h
      exact of_decide_eq_true h
    · intro h
      rw [decide_eq_true h]

set_option maxRecDepth 100000 in
unseal Rat.add Rat.sub Rat.mul Rat.inv in
/-- C4 witness: a one-frame buffer, and a three-frame buffer (black, black,
white) whose adjacent similarities are 1 and 0. -/
theorem detect_fast_motion_spec_witness :
    detect_fast_motion defaultConfig [fA] = .ok false ∧
    (detect_fast_motion defaultConfig [fA, fA, fW] = .ok true ↔
      listMean [1, 0] < 1 - defaultConfig.motion_threshold) :=
  ⟨(detect_fast_motion_spec defaultConfig).1 [fA] (by decide),
   (detect_fast_motion_spec defaultConfig).2 [fA, fA, fW] [1, 0] (by decide) (by decide)⟩

theorem dupScan_true_iff (cfg : Config) (f : Frame) :
    ∀ cache : List Frame,
      (∀ g ∈ cache, f.pixels ≠ [] ∧ g.pixels ≠ [] ∧ sameShape f g) →
      (dupScan cfg f cache = .ok true ↔
        ∃ g ∈ cache, HistSimExceeds f g cfg.duplicate_threshold ∧
          cfg.duplicate_threshold < structuralSimQ f g) := by
  intro cache
  induction cache with
  | nil =>
      intro _
      constructor
      · intro h; exact absurd h (by simp [dupScan])
      · rintro ⟨g, hg, _⟩; exact absurd hg (List.not_mem_nil g)
  | cons gg rest ih =>
      intro hwf
      obtain ⟨hf, hg, hsh⟩ := hwf gg (by simp)
      unfold dupScan
      rw [if_neg (by simp [hf, hg])]
      have hst : calculate_structural_similarity f gg = .ok (structuralSimQ f gg) := by
        unfold calculate_structural_similarity
        rw [if_neg (by simp [hf, hg]), if_pos hsh]
      rw [hst, except_bind_ok]
      by_cases hcond : HistSimExceeds f gg cfg.duplicate_threshold ∧
          cfg.duplicate_threshold < structuralSimQ f gg
      · rw [if_pos hcond]
        constructor
        · intro _; exact ⟨gg, by simp, hcond⟩
        · intro _; rfl
      · rw [if_neg hcond, ih (fun g hgr => hwf g (List.mem_cons_of_mem _ hgr))]
        constructor
        · rintro ⟨g, hgr, hcc⟩; exact ⟨g, List.mem_cons_of_mem _ hgr, hcc⟩
        · rintro ⟨g, hgm, hcc⟩
          rcases List.mem_cons.mp hgm with rfl | hgr
          · exact absurd hcc hcond
          · exact ⟨g, hgr, hcc⟩

/-- C5: a candidate is classified as a duplicate iff some cached frame exceeds
`duplicate_threshold` on BOTH the histogram similarity and the structural
similarity (a strict conjunction, no blending); an empty cache always yields
not-duplicate.  The check is a pure function of the frame and the cache. -/
theorem is_duplicate_frame_spec (cfg : Config) (f : Frame) :
    is_duplicate_frame cfg f [] = .ok false ∧
    ∀ cache : List Frame,
      (∀ g ∈ cache, f.pixels ≠ [] ∧ g.pixels ≠ [] ∧ sameShape f g) →
      (is_duplicate_frame cfg f cache = .ok true ↔
        ∃ g ∈ cache, HistSimExceeds f g cfg.duplicate_threshold ∧
          cfg.duplicate_threshold < structuralSimQ f g) := by
  refine ⟨rfl, ?_⟩
  intro cache hwf
  by_cases hnil : cache = []
  · subst hnil
    unfold is_duplicate_frame
    rw [if_pos rfl]
    simp
  · unfold is_duplicate_frame
    rw [if_neg hnil]
    exact dupScan_true_iff cfg f cache hwf

set_option maxRecDepth 100000 in
unseal Rat.add Rat.sub Rat.mul Rat.inv in
/-- C5 witness: the empty cache, and a one-frame cache containing the
candidate itself. -/
theorem is_duplicate_frame_spec_witness :
    is_duplicate_frame defaultConfig fA [] = .ok false ∧
    (is_duplicate_frame defaultConfig fA [fA] = .ok true ↔
      ∃ g ∈ [fA], HistSimExceeds fA g defaultConfig.duplicate_threshold ∧
        defaultConfig.duplicate_threshold < structuralSimQ fA g) :=
  ⟨(is_duplicate_frame_spec defaultConfig fA).1,
   (is_duplicate_frame_spec defaultConfig fA).2 [fA] (by decide)⟩

/-- C6: every successful tick appends one entry to both the saved-frame cache
and the record list (a non-duplicate save) or to neither, never shrinking
either, so along any successful run from the initial state their lengths are
always equal. -/
theorem cache_manifest_lockstep :
    (∀ (cfg : Config) (s : EState) (F : Frame) (t : ℚ) (s' : EState),
      processTick cfg s F t = .ok s' →
      (s'.saved_frames_cache = s.saved_frames_cache ∧
        s'.extracted_frames = s.extracted_frames) ∨
      (∃ fr rec, s'.saved_frames_cache = s.saved_frames_cache ++ [fr] ∧
        s'.extracted_frames = s.extracted_frames ++ [rec])) ∧
    (∀ (cfg : Config) (ticks : List (Frame × ℚ)) (s' : EState),
      runTicks cfg initState ticks = .ok s' →
      s'.saved_frames_cache.length = s'.extracted_frames.length) :=
  ⟨processTick_cache_ext,
   fun cfg ticks s' h => runTicks_length cfg ticks initState s' h rfl⟩

set_option maxRecDepth 100000 in
unseal Rat.add Rat.sub Rat.mul Rat.inv in
/-- C6 witness: the saving tick at time 5 of the constant stream, and the full
five-tick run reaching that state. -/
theorem cache_manifest_lockstep_witness :
    ((postSaveState.saved_frames_cache = preSaveState.saved_frames_cache ∧
        postSaveState.extracted_frames = preSaveState.extracted_frames) ∨
      (∃ fr rec, postSaveState.saved_frames_cache =
          preSaveState.saved_frames_cache ++ [fr] ∧
        postSaveState.extracted_frames = preSaveState.extracted_frames ++ [rec])) ∧
    postSaveState.saved_frames_cache.length = postSaveState.extracted_frames.length :=
  ⟨cache_manifest_lockstep.1 defaultConfig preSaveState fA 5 postSaveState (by decide),
   cache_manifest_lockstep.2 defaultConfig
     [(fA, 1), (fA, 2), (fA, 3), (fA, 4), (fA, 5)] postSaveState (by decide)⟩

/-- Supporting lemma for C10: once the candidate run has already been saved
(`last_saved_time = stable_start_time`), any later confirming tick of the same
uninterrupted stable run with `t - since ≥ min_stable_duration` re-attempts the
save: the duplicate check runs, and the record list grows iff it reports
not-duplicate. -/
theorem stable_run_resave (cfg : Config) (s : EState) (c F : Frame) (t : ℚ) (b : Bool)
    (hc : s.stable_frame = some c)
    (hlast : s.last_saved_time = s.stable_start_time)
    (hm : detect_fast_motion cfg (pushBuffer s.frames_buffer F) = .ok false)
    (hsim : is_frame_stable cfg F s.stable_frame (t - s.stable_start_time) = .ok (true, c))
    (hdur : cfg.min_stable_duration ≤ t - s.stable_start_time)
    (hdup : is_duplicate_frame cfg c s.saved_frames_cache = .ok b) :
    ∃ s', processTick cfg s F t = .ok s' ∧
      (b = true → s'.saved_frames_cache = s.saved_frames_cache ∧
        s'.extracted_frames = s.extracted_frames) ∧
      (b = false → s'.saved_frames_cache = s.saved_frames_cache ++ [c] ∧
        s'.extracted_frames = s.extracted_frames ++
          [{ frame_number := s.frame_count, timestamp := s.stable_start_time,
             filename := mkFilename s.frame_count s.stable_start_time,
             filepath := cfg.output_folder ++ "/" ++
               mkFilename s.frame_count s.stable_start_time }] ∧
        s'.last_saved_time = s.stable_start_time) := by
  simp only [processTick]
  rw [hm, except_bind_ok, if_neg (by simp), hsim, except_bind_ok, if_pos rfl,
    if_pos ⟨hdur, by rw [hlast]; exact hdur⟩]
  unfold save_frame
  rw [hdup, except_bind_ok]
  cases b with
  | true =>
      rw [if_pos rfl, except_bind_ok]
      refine ⟨_, rfl, ?_, ?_⟩
      · intro _; exact ⟨rfl, rfl⟩
      · intro h; exact Bool.noConfusion h
  | false =>
      rw [if_neg (by simp), except_bind_ok]
      refine ⟨_, rfl, ?_, ?_⟩
      · intro h; exact Bool.noConfusion h
      · intro _; exact ⟨rfl, rfl, rfl⟩

/-- C10: after every actual save the tick sets `last_saved_time` to the
candidate's stable-start time (the saved timestamp), not the tick time; and on
every later confirming tick of the same uninterrupted stable run the save
condition holds again, so a save is re-attempted with only the duplicate
filter preventing a second write. -/
theorem save_sets_lastSaved_and_rearms :
    (∀ (cfg : Config) (s : EState) (F : Frame) (t : ℚ) (s' : EState),
      processTick cfg s F t = .ok s' →
      s'.extracted_frames ≠ s.extracted_frames →
      s'.last_saved_time = s.stable_start_time) ∧
    (∀ (cfg : Config) (s : EState) (c F : Frame) (t : ℚ) (b : Bool),
      s.stable_frame = some c →
      s.last_saved_time = s.stable_start_time →
      detect_fast_motion cfg (pushBuffer s.frames_buffer F) = .ok false →
      is_frame_stable cfg F s.stable_frame (t - s.stable_start_time) = .ok (true, c) →
      cfg.min_stable_duration ≤ t - s.stable_start_time →
      is_duplicate_frame cfg c s.saved_frames_cache = .ok b →
      ∃ s', processTick cfg s F t = .ok s' ∧
        (b = true → s'.saved_frames_cache = s.saved_frames_cache ∧
          s'.extracted_frames = s.extracted_frames) ∧
        (b = false → s'.saved_frames_cache = s.saved_frames_cache ++ [c] ∧
          s'.extracted_frames = s.extracted_frames ++
            [{ frame_number := s.frame_count, timestamp := s.stable_start_time,
               filename := mkFilename s.frame_count s.stable_start_time,
               filepath := cfg.output_folder ++ "/" ++
                 mkFilename s.frame_count s.stable_start_time }] ∧
          s'.last_saved_time = s.stable_start_time)) :=
  ⟨processTick_saved_lastSaved, stable_run_resave⟩

set_option maxRecDepth 100000 in
unseal Rat.add Rat.sub Rat.mul Rat.inv in
/-- C10 witness: the first save of the constant stream (tick at time 5), then
the confirming tick at time 6, where the duplicate filter blocks the re-save. -/
theorem save_sets_lastSaved_and_rearms_witness :
    postSaveState.last_saved_time = preSaveState.stable_start_time ∧
    ∃ s', processTick defaultConfig postSaveState fA 6 = .ok s' ∧
      (true = true → s'.saved_frames_cache = postSaveState.saved_frames_cache ∧
        s'.extracted_frames = postSaveState.extracted_frames) ∧
      (true = false → s'.saved_frames_cache = postSaveState.saved_frames_cache ++ [fA] ∧
        s'.extracted_frames = postSaveState.extracted_frames ++
          [{ frame_number := postSaveState.frame_count,
             timestamp := postSaveState.stable_start_time,
             filename := mkFilename postSaveState.frame_count postSaveState.stable_start_time,
             filepath := defaultConfig.output_folder ++ "/" ++
               mkFilename postSaveState.frame_count postSaveState.stable_start_time }] ∧
        s'.last_saved_time = postSaveState.stable_start_time) :=
  ⟨save_sets_lastSaved_and_rearms.1 defaultConfig preSaveState fA 5 postSaveState
     (by decide) (by decide),
   save_sets_lastSaved_and_rearms.2 defaultConfig postSaveState fA fA 6 true
     rfl rfl (by decide) (by decide) (by decide) (by decide)⟩

end LectureFrames
